import Mathlib

/-!
Verification of the recycle-ai repository: a browser chat client
(src/frontend/src/App.tsx) that collects item names, sends composed prompts to
a generative-language API through a one-route Express proxy
(src/backend/server.js), and keeps a persisted history.

The embedding is shallow: the TypeScript/JavaScript functions are translated
into executable Lean definitions.  Effects are made explicit:
  - network calls are parametrised by an upstream oracle (a function from the
    attempt index, or from the forwarded body, to the outcome);
  - `sleep` durations are collected into an explicit list of waits;
  - `Date.now()` / `new Date().toISOString()` values are passed as parameters;
  - browser localStorage is threaded as an explicit optional stored value.
JavaScript `undefined`-producing optional chains become `Option`, and the
falsy/truthy semantics of `||` is modelled by an explicit `falsy` predicate on
JSON values.
-/

namespace RecycleAI

/-! ## Upstream response data model

Shape of `response.data` as read by the frontend's
`response.data.candidates?.[0]?.content?.parts?.[0]?.text` chain
(src/frontend/src/App.tsx line 158).  Every step that JavaScript optional
chaining can find missing is an `Option`. -/

structure GeminiPart where
  text : Option String
  deriving DecidableEq

structure GeminiContent where
  parts : Option (List GeminiPart)
  deriving DecidableEq

structure GeminiCandidate where
  content : Option GeminiContent
  deriving DecidableEq

structure GeminiData where
  candidates : Option (List GeminiCandidate)
  deriving DecidableEq

/-- The optional chain `data.candidates?.[0]?.content?.parts?.[0]?.text`:
`none` wherever JavaScript would produce `undefined`. -/
def optionalChainText (d : GeminiData) : Option String :=
  ((((d.candidates.bind List.head?).bind GeminiCandidate.content).bind
      GeminiContent.parts).bind List.head?).bind GeminiPart.text

/-- `chain || "No instructions found."` — JavaScript `||` falls back both on
`undefined` and on the falsy empty string. -/
def extractText (d : GeminiData) : String :=
  match optionalChainText d with
  | some t => if t = "" then "No instructions found." else t
  | none => "No instructions found."

/-! ## fetchWithRetry (src/frontend/src/App.tsx lines 153-166) -/

/-- A rejected `axios.post`: either an axios error carrying
`err.response?.status` (which is absent when no HTTP response was received),
or a non-axios error (`axios.isAxiosError(err)` false). -/
inductive FetchErr where
  | axiosErr (status : Option Nat)
  | otherErr
  deriving DecidableEq

/-- `axios.isAxiosError(err) && err.response?.status === 429`. -/
def is429 : FetchErr → Bool
  | .axiosErr (some s) => s == 429
  | _ => false

def MAX_RETRIES : Nat := 3

def RETRY_DELAY : Nat := 1000

deriving instance DecidableEq for Except

/-- Result of a whole `fetchWithRetry` run: the value returned or error
thrown, how many times `axios.post` was attempted, and the `sleep` durations
in the order they happened. -/
structure FetchRun where
  result : Except FetchErr String
  attempts : Nat
  waits : List Nat
  deriving DecidableEq

/-- `fetchWithRetry(prompt, retryCount)`.  The upstream oracle maps the
attempt index (equal to the `retryCount` argument of that attempt) to the
outcome of `axios.post`.  On success the extracted text is returned; on a 429
axios error with `retryCount < MAX_RETRIES` the code sleeps
`RETRY_DELAY * 2 ^ retryCount` and recurses with `retryCount + 1`; any other
error is rethrown. -/
def fetchWithRetry (upstream : Nat → Except FetchErr GeminiData)
    (retryCount : Nat) : FetchRun :=
  match upstream retryCount with
  | .ok data => ⟨.ok (extractText data), 1, []⟩
  | .error err =>
    if h : retryCount < MAX_RETRIES ∧ is429 err = true then
      let rest := fetchWithRetry upstream (retryCount + 1)
      ⟨rest.result, rest.attempts + 1, RETRY_DELAY * 2 ^ retryCount :: rest.waits⟩
    else
      ⟨.error err, 1, []⟩
termination_by MAX_RETRIES + 1 - retryCount
decreasing_by simp_wf; omega

/-! ## Items list (src/frontend/src/App.tsx lines 110-126)

`RecyclingItem` is the `{ id, name }` record; the state starts as
`[{ id: '1', name: '' }]`.  `handleItemChange` maps the edit over the list
and, when the edited id is the last slot's id and the new value is non-blank
after `trim()`, appends a fresh blank slot whose id comes from
`Date.now().toString()` — modelled as the explicit `freshId` parameter.  -/

/-- `String.prototype.trim()`: strip leading and trailing whitespace.
Implemented over the character list so that it is kernel-computable. -/
def jsTrim (s : String) : String :=
  String.mk (((s.data.dropWhile Char.isWhitespace).reverse.dropWhile
    Char.isWhitespace).reverse)

structure RecyclingItem where
  id : String
  name : String
  deriving DecidableEq

def initialItems : List RecyclingItem := [⟨"1", ""⟩]

def handleItemChange (prevItems : List RecyclingItem)
    (id value freshId : String) : List RecyclingItem :=
  let updatedItems := prevItems.map fun item =>
    if item.id = id then { item with name := value } else item
  if (prevItems.getLast?.map RecyclingItem.id) = some id ∧ jsTrim value ≠ "" then
    updatedItems ++ [{ id := freshId, name := "" }]
  else
    updatedItems

/-- `removeItem` (guard `items.length > 1`, then filter by id). -/
def removeItem (items : List RecyclingItem) (id : String) : List RecyclingItem :=
  if items.length > 1 then items.filter (fun item => item.id ≠ id) else items

/-- One user action on the items list: an edit of the slot with the given id
(`freshId` standing for the `Date.now()` id of a possibly appended slot), or a
click on a slot's delete button. -/
inductive ItemOp where
  | edit (id value freshId : String)
  | remove (id : String)
  deriving DecidableEq

def applyItemOp (items : List RecyclingItem) : ItemOp → List RecyclingItem
  | .edit id value freshId => handleItemChange items id value freshId
  | .remove id => removeItem items id

/-- Run a sequence of user actions from the initial single blank slot. -/
def runItemOps (ops : List ItemOp) : List RecyclingItem :=
  ops.foldl applyItemOp initialItems

/-- Length of the maximal run of trim-blank slots at the end of the list. -/
def trailingBlankCount (items : List RecyclingItem) : Nat :=
  (items.reverse.takeWhile (fun item => jsTrim item.name == "")).length

/-- The last slot exists and is blank after `trim()`. -/
def lastSlotBlank (items : List RecyclingItem) : Bool :=
  match items.getLast? with
  | some item => jsTrim item.name == ""
  | none => false

/-- The claim's invariant, as stated: exactly one trailing empty slot, except
that deleting may reduce the list to the minimum of one slot. -/
def claimedItemsInvariant (items : List RecyclingItem) : Prop :=
  trailingBlankCount items = 1 ∨ items.length = 1

/-- An action is benign when it is an edit, or a delete that does not target
the last slot (the source lets the user delete the trailing blank slot; such
deletes are exactly what breaks the trailing-blank invariant). -/
def itemOpOk (items : List RecyclingItem) : ItemOp → Bool
  | .edit _ _ _ => true
  | .remove id => !((items.getLast?.map RecyclingItem.id) == some id)

def itemOpsOk : List RecyclingItem → List ItemOp → Bool
  | _, [] => true
  | items, op :: rest => itemOpOk items op && itemOpsOk (applyItemOp items op) rest

/-! ## Conversation client state (src/frontend/src/App.tsx lines 69-236)

The `useState` hooks of `App` relevant to the claims, gathered in one record.
(The `theme` state is handled only by the separate theme handlers and is
never touched by the functions modelled here.)  `handleSubmit` is modelled as
a function of the pre-state, the outcome of `fetchWithRetry` (a network
oracle parameter), and the `Date` values; besides the post-state it reports
the prompt sent upstream, `none` when no network call was made. -/

inductive MsgType where
  | user
  | assistant
  deriving DecidableEq

structure Message where
  type : MsgType
  content : String
  timestamp : String
  deriving DecidableEq

structure RecyclingInstruction where
  id : String
  items : List RecyclingItem
  additionalNotes : String
  instructions : String
  timestamp : String
  deriving DecidableEq

structure AppState where
  items : List RecyclingItem
  additionalNotes : String
  isLoading : Bool
  history : List RecyclingInstruction
  error : Option String
  messages : List Message
  currentInput : String
  showItemsInput : Bool
  hasInitialResponse : Bool
  deriving DecidableEq

/-- JavaScript `Array.prototype.join(sep)`: the elements concatenated with
`sep` between consecutive elements. -/
def joinSep (sep : String) : List String → String
  | [] => ""
  | [x] => x
  | x :: y :: xs => x ++ sep ++ joinSep sep (y :: xs)

/-- `msg.type === 'user' ? 'Human' : 'Assistant'` plus `": "` and the content:
one serialized transcript line. -/
def serializeMessage (msg : Message) : String :=
  (match msg.type with
   | .user => "Human"
   | .assistant => "Assistant") ++ ": " ++ msg.content

/-- `buildPromptWithContext` (lines 128-134): every prior message serialized,
joined by a line break, then a blank line and the new text as a Human turn. -/
def buildPromptWithContext (messages : List Message) (newPrompt : String) : String :=
  let contextPrompt := joinSep "\n" (messages.map serializeMessage)
  contextPrompt ++ "\n\nHuman: " ++ newPrompt

/-- Outcome of the awaited `fetchWithRetry(finalPrompt)` call: the resolved
text, or a thrown error (of any kind) caught by `handleSubmit`. -/
inductive NetResult where
  | ok (text : String)
  | fail
  deriving DecidableEq

structure SubmitResult where
  state : AppState
  request : Option String
  deriving DecidableEq

/-- `items.filter(item => item.name.trim() !== '')`. -/
def validItemsOf (items : List RecyclingItem) : List RecyclingItem :=
  items.filter fun item => jsTrim item.name ≠ ""

/-- The fixed instructional template of the initial prompt (line 177). -/
def initialPromptTemplate (itemsList notes : String) : String :=
  "I have the following items: " ++ itemsList ++
  ". Instead of just recycling them, I want to explore creative ways to upcycle or repurpose them into something useful or beautiful. Please provide innovative ideas for transforming these items into new products, home decor, or practical everyday objects. Also, include any necessary recycling steps before repurposing. Additional considerations: " ++
  notes ++
  ". Don\x27t provide different answers for each item, provide the answer of using all together"

def failureMessage : String := "Failed to get a response. Please try again."

/-- Common tail of `handleSubmit` after the mode-specific prompt was chosen
(lines 187-225): set loading, clear the error, append the user message, clear
the input, await the fetch; on success append the assistant message and, in
items mode, prepend the new `RecyclingInstruction` and switch to chat mode;
on failure set the error message; finally clear loading. -/
def submitCore (s : AppState) (net : NetResult) (ts newId : String)
    (finalPrompt userContent : String) : SubmitResult :=
  let userMessage : Message := ⟨.user, userContent, ts⟩
  let s1 := { s with isLoading := true, error := none,
                     messages := s.messages ++ [userMessage], currentInput := "" }
  match net with
  | .ok text =>
    let assistantMessage : Message := ⟨.assistant, text, ts⟩
    let s2 := { s1 with messages := s1.messages ++ [assistantMessage] }
    let s3 :=
      if s.showItemsInput then
        { s2 with
            history := ⟨newId, validItemsOf s.items, s.additionalNotes, text, ts⟩ :: s2.history,
            showItemsInput := false,
            hasInitialResponse := true }
      else s2
    ⟨{ s3 with isLoading := false }, some finalPrompt⟩
  | .fail =>
    ⟨{ s1 with error := some failureMessage, isLoading := false }, some finalPrompt⟩

/-- `handleSubmit` (lines 168-226).  In items mode the user-message content
`Items: ...` recomputes `items.filter(...).map(...).join(', ')`, the same
string as `itemsList`. -/
def handleSubmit (s : AppState) (net : NetResult) (ts newId : String) : SubmitResult :=
  if s.showItemsInput then
    let validItems := validItemsOf s.items
    if validItems.length = 0 then ⟨s, none⟩
    else
      let itemsList := joinSep ", " (validItems.map RecyclingItem.name)
      submitCore s net ts newId (initialPromptTemplate itemsList s.additionalNotes)
        ("Items: " ++ itemsList)
  else if jsTrim s.currentInput = "" then ⟨s, none⟩
  else
    submitCore s net ts newId (buildPromptWithContext s.messages s.currentInput)
      s.currentInput

/-- `handleNewChat` (lines 228-236): explicit new-conversation reset.  Note
that `history` is kept. -/
def handleNewChat (s : AppState) : AppState :=
  { s with messages := [], currentInput := "", error := none,
           items := initialItems, additionalNotes := "",
           showItemsInput := true, hasInitialResponse := false }

/-! ## JSON values

A small model of JSON data, used for the proxy's pass-through bodies and for
the localStorage round trip.  JavaScript `undefined` is represented by
`Option.none` at use sites; `Json.falsy` is the truthiness test that `||`
performs on a JSON value (`null`, `false`, `0` and `""` are falsy; arrays and
objects are always truthy). -/

inductive Json where
  | null
  | bool (b : Bool)
  | num (n : Int)
  | str (s : String)
  | arr (elems : List Json)
  | obj (fields : List (String × Json))

def Json.falsy : Json → Bool
  | .null => true
  | .bool b => !b
  | .num n => n == 0
  | .str s => s == ""
  | .arr _ => false
  | .obj _ => false

/-! ## Proxy route POST /api/gemini (src/backend/server.js lines 13-31)

The handler forwards `{ contents: req.body.contents }` to the upstream
endpoint via `axios.post` and relays the outcome.  `axios` resolves exactly
when the HTTP status is in 200-299 (its default `validateStatus`) and
otherwise rejects with `err.response = { status, data }`; when no HTTP
response was received at all (`upstream unreachable`), `err.response` is
`undefined`.  `res.json(body)` responds with status 200; the catch branch
responds `res.status(500).json({ error: error.response?.data || "Internal
Server Error" })`. -/

structure ProxyResponse where
  status : Nat
  body : Json

/-- Behaviour of one upstream call: an HTTP response with a status and a
parsed body, or no response at all. -/
inductive UpstreamOutcome where
  | http (status : Nat) (body : Json)
  | network

def genericErrorBody : Json := Json.str "Internal Server Error"

/-- `error.response?.data || "Internal Server Error"`. -/
def errorPayload : Option Json → Json
  | some d => if d.falsy then genericErrorBody else d
  | none => genericErrorBody

/-- The whole route handler, parametrised by the upstream behaviour as a
function of the forwarded `contents`. -/
def geminiPost (upstream : Json → UpstreamOutcome) (reqContents : Json) :
    ProxyResponse :=
  match upstream reqContents with
  | .http status body =>
    if 200 ≤ status ∧ status < 300 then ⟨200, body⟩
    else ⟨500, Json.obj [("error", errorPayload (some body))]⟩
  | .network => ⟨500, Json.obj [("error", errorPayload none)]⟩

/-! ## History persistence (src/frontend/src/App.tsx lines 95-108)

`JSON.stringify` of the history is modelled at the JSON-value level:
`encodeHistory` is the JSON document it produces (field order as in the
object literal at lines 210-216), and `decodeHistory` is the reading of that
document back into `RecyclingInstruction` values, as the startup
`JSON.parse(savedHistory)` does.  (That the JSON text itself round-trips
through `JSON.parse ∘ JSON.stringify` is a property of the external JSON
library and is not re-verified here.) -/

def encodeItem (item : RecyclingItem) : Json :=
  .obj [("id", .str item.id), ("name", .str item.name)]

def encodeEntry (e : RecyclingInstruction) : Json :=
  .obj [("id", .str e.id),
        ("items", .arr (e.items.map encodeItem)),
        ("additionalNotes", .str e.additionalNotes),
        ("instructions", .str e.instructions),
        ("timestamp", .str e.timestamp)]

def encodeHistory (h : List RecyclingInstruction) : Json :=
  .arr (h.map encodeEntry)

def decodeItem : Json → Option RecyclingItem
  | .obj [("id", .str i), ("name", .str n)] => some ⟨i, n⟩
  | _ => none

def decodeItems : List Json → Option (List RecyclingItem)
  | [] => some []
  | j :: rest =>
    match decodeItem j, decodeItems rest with
    | some item, some items => some (item :: items)
    | _, _ => none

def decodeEntry : Json → Option RecyclingInstruction
  | .obj [("id", .str i), ("items", .arr js), ("additionalNotes", .str notes),
          ("instructions", .str instr), ("timestamp", .str ts)] =>
    (decodeItems js).map fun items => ⟨i, items, notes, instr, ts⟩
  | _ => none

def decodeEntries : List Json → Option (List RecyclingInstruction)
  | [] => some []
  | j :: rest =>
    match decodeEntry j, decodeEntries rest with
    | some e, some es => some (e :: es)
    | _, _ => none

def decodeHistory : Json → Option (List RecyclingInstruction)
  | .arr js => decodeEntries js
  | _ => none

/-- The save effect (lines 104-108): runs after every change of `history`;
writes `JSON.stringify(history)` under the key `recyclingHistory` only when
`history.length > 0`, and otherwise leaves the stored value alone.  `store`
is the value currently held under that key (`none` when absent). -/
def saveHistoryEffect (store : Option Json) (history : List RecyclingInstruction) :
    Option Json :=
  if history.length > 0 then some (encodeHistory history) else store

/-! ## Unfolding lemmas for fetchWithRetry -/

lemma fetchWithRetry_ok (up : Nat → Except FetchErr GeminiData) (rc : Nat)
    (d : GeminiData) (h : up rc = .ok d) :
    fetchWithRetry up rc = ⟨.ok (extractText d), 1, []⟩ := by
  rw [fetchWithRetry, h]

lemma fetchWithRetry_retry (up : Nat → Except FetchErr GeminiData) (rc : Nat)
    (e : FetchErr) (h : up rc = .error e) (h1 : rc < MAX_RETRIES)
    (h2 : is429 e = true) :
    fetchWithRetry up rc =
      ⟨(fetchWithRetry up (rc + 1)).result,
       (fetchWithRetry up (rc + 1)).attempts + 1,
       RETRY_DELAY * 2 ^ rc :: (fetchWithRetry up (rc + 1)).waits⟩ := by
  rw [fetchWithRetry, h]
  simp [h1, h2]

lemma fetchWithRetry_stop (up : Nat → Except FetchErr GeminiData) (rc : Nat)
    (e : FetchErr) (h : up rc = .error e)
    (h2 : ¬(rc < MAX_RETRIES ∧ is429 e = true)) :
    fetchWithRetry up rc = ⟨.error e, 1, []⟩ := by
  rw [fetchWithRetry, h]
  simp [h2]

/-- The extracted text is never the empty string: the `|| "No instructions
found."` fallback also replaces an empty extracted text. -/
lemma extractText_ne_empty (d : GeminiData) : extractText d ≠ "" := by
  unfold extractText
  cases h : optionalChainText d with
  | none => decide
  | some t =>
    by_cases ht : t = ""
    · simp [ht]
    · simp [ht]

/-- Any string a `fetchWithRetry` run resolves with is the extraction of some
upstream body. -/
lemma fetchWithRetry_ok_extract (up : Nat → Except FetchErr GeminiData) :
    ∀ fuel rc, MAX_RETRIES ≤ rc + fuel → ∀ s,
      (fetchWithRetry up rc).result = .ok s → ∃ d, s = extractText d := by
  intro fuel
  induction fuel with
  | zero =>
    intro rc hle s hs
    cases h : up rc with
    | ok d =>
      rw [fetchWithRetry_ok up rc d h] at hs
      simp at hs
      exact ⟨d, hs.symm⟩
    | error e =>
      rw [fetchWithRetry_stop up rc e h (fun hc => absurd hc.1 (by omega))] at hs
      simp at hs
  | succ n ih =>
    intro rc hle s hs
    cases h : up rc with
    | ok d =>
      rw [fetchWithRetry_ok up rc d h] at hs
      simp at hs
      exact ⟨d, hs.symm⟩
    | error e =>
      by_cases hc : rc < MAX_RETRIES ∧ is429 e = true
      · rw [fetchWithRetry_retry up rc e h hc.1 hc.2] at hs
        exact ih (rc + 1) (by omega) s hs
      · rw [fetchWithRetry_stop up rc e h hc] at hs
        simp at hs

/-- Claim C1: `fetchWithRetry` retries only on HTTP 429, at most 3 times
(4 total attempts), sleeping `RETRY_DELAY * 2 ^ attemptIndex` before each
retry.  Under an always-429 upstream it makes exactly 4 attempts with waits
1000 ms, 2000 ms, 4000 ms in that order and then fails with the 429 error;
under a 429-then-success upstream it succeeds on the second attempt after a
single 1000 ms wait, returning the success body's extracted text; a non-429
error propagates at once, with one attempt and no wait. -/
theorem c1_retry_backoff (upstream : Nat → Except FetchErr GeminiData) :
    ((∀ n, upstream n = .error (.axiosErr (some 429))) →
      fetchWithRetry upstream 0 =
        ⟨.error (.axiosErr (some 429)), 4, [1000, 2000, 4000]⟩) ∧
    (∀ d, upstream 0 = .error (.axiosErr (some 429)) → upstream 1 = .ok d →
      fetchWithRetry upstream 0 = ⟨.ok (extractText d), 2, [1000]⟩) ∧
    (∀ e, upstream 0 = .error e → is429 e = false →
      fetchWithRetry upstream 0 = ⟨.error e, 1, []⟩) := by
  refine ⟨fun h => ?_, fun d h0 h1 => ?_, fun e h0 h429 => ?_⟩
  · rw [fetchWithRetry_retry upstream 0 _ (h 0) (by decide) (by decide),
        fetchWithRetry_retry upstream 1 _ (h 1) (by decide) (by decide),
        fetchWithRetry_retry upstream 2 _ (h 2) (by decide) (by decide),
        fetchWithRetry_stop upstream 3 _ (h 3) (by decide)]
    norm_num [RETRY_DELAY]
  · rw [fetchWithRetry_retry upstream 0 _ h0 (by decide) (by decide),
        fetchWithRetry_ok upstream 1 d h1]
    norm_num [RETRY_DELAY]
  · rw [fetchWithRetry_stop upstream 0 e h0 (by simp [h429])]

/-- Witness for C1 at concrete upstreams: always-429; 429-then-success with
body text "Reuse the jar."; always-500. -/
theorem c1_retry_backoff_witness :
    fetchWithRetry (fun _ => .error (.axiosErr (some 429))) 0 =
      ⟨.error (.axiosErr (some 429)), 4, [1000, 2000, 4000]⟩ ∧
    fetchWithRetry
      (fun n => if n = 0 then .error (.axiosErr (some 429))
                else .ok ⟨some [⟨some ⟨some [⟨some "Reuse the jar."⟩]⟩⟩]⟩) 0 =
      ⟨.ok "Reuse the jar.", 2, [1000]⟩ ∧
    fetchWithRetry (fun _ => .error (.axiosErr (some 500))) 0 =
      ⟨.error (.axiosErr (some 500)), 1, []⟩ :=
  ⟨(c1_retry_backoff _).1 (fun _ => rfl),
   (c1_retry_backoff _).2.1 ⟨some [⟨some ⟨some [⟨some "Reuse the jar."⟩]⟩⟩]⟩ rfl rfl,
   (c1_retry_backoff _).2.2 _ rfl rfl⟩

/-- Claim C10: when the optional chain
`candidates?.[0]?.content?.parts?.[0]?.text` finds nothing, the resolved
value is the literal fallback "No instructions found."; a successful call
always resolves (with the body's extraction) and always yields a non-empty
string. -/
theorem c10_missing_text_fallback :
    (∀ d : GeminiData, optionalChainText d = none →
      extractText d = "No instructions found.") ∧
    (∀ d : GeminiData, extractText d ≠ "") ∧
    (∀ (up : Nat → Except FetchErr GeminiData) (rc : Nat) (d : GeminiData),
      up rc = .ok d → fetchWithRetry up rc = ⟨.ok (extractText d), 1, []⟩) ∧
    (∀ (up : Nat → Except FetchErr GeminiData) (rc : Nat) (s : String),
      (fetchWithRetry up rc).result = .ok s → s ≠ "") := by
  refine ⟨fun d h => ?_, extractText_ne_empty, fetchWithRetry_ok, fun up rc s hs => ?_⟩
  · simp [extractText, h]
  · obtain ⟨d, rfl⟩ :=
      fetchWithRetry_ok_extract up (MAX_RETRIES + 1) rc (by omega) s hs
    exact extractText_ne_empty d

/-- Witness for C10 at the concrete degenerate bodies: missing `candidates`,
empty `candidates`, missing `content`, missing `parts`, empty `parts`,
missing `text`, and an empty extracted text. -/
theorem c10_missing_text_fallback_witness :
    extractText ⟨none⟩ = "No instructions found." ∧
    extractText ⟨some []⟩ = "No instructions found." ∧
    extractText ⟨some [⟨none⟩]⟩ = "No instructions found." ∧
    extractText ⟨some [⟨some ⟨none⟩⟩]⟩ = "No instructions found." ∧
    extractText ⟨some [⟨some ⟨some []⟩⟩]⟩ = "No instructions found." ∧
    extractText ⟨some [⟨some ⟨some [⟨none⟩]⟩⟩]⟩ = "No instructions found." ∧
    fetchWithRetry (fun _ => .ok ⟨none⟩) 0 =
      ⟨.ok "No instructions found.", 1, []⟩ :=
  ⟨c10_missing_text_fallback.1 _ rfl,
   c10_missing_text_fallback.1 _ rfl,
   c10_missing_text_fallback.1 _ rfl,
   c10_missing_text_fallback.1 _ rfl,
   c10_missing_text_fallback.1 _ rfl,
   c10_missing_text_fallback.1 _ rfl,
   c10_missing_text_fallback.2.2.1 _ 0 ⟨none⟩ rfl⟩

/-! ## Claim C2: items-list invariant -/

lemma getLast?_map {α β : Type} (f : α → β) (l : List α) :
    (l.map f).getLast? = l.getLast?.map f := by
  rw [List.getLast?_eq_head?_reverse, List.getLast?_eq_head?_reverse,
      ← List.map_reverse, List.head?_map]

lemma lastSlotBlank_ne_nil {items : List RecyclingItem}
    (h : lastSlotBlank items = true) : items ≠ [] := by
  intro hnil
  subst hnil
  simp [lastSlotBlank] at h

lemma lastSlotBlank_handleItemChange (items : List RecyclingItem)
    (id value freshId : String) (h : lastSlotBlank items = true) :
    lastSlotBlank (handleItemChange items id value freshId) = true := by
  unfold handleItemChange
  by_cases hc : (items.getLast?.map RecyclingItem.id) = some id ∧ jsTrim value ≠ ""
  · rw [if_pos hc]
    simp [lastSlotBlank]
    decide
  · rw [if_neg hc]
    unfold lastSlotBlank at h ⊢
    rw [getLast?_map]
    cases hl : items.getLast? with
    | none => rw [hl] at h; simp at h
    | some last =>
      rw [hl] at h
      simp at h
      simp only [Option.map_some']
      by_cases hid : last.id = id
      · have hv : jsTrim value = "" := by
          by_contra hv
          exact hc ⟨by rw [hl]; simp [hid], hv⟩
        simp [hid, hv]
      · simp [hid]
        exact h

lemma lastSlotBlank_removeItem (items : List RecyclingItem) (id : String)
    (h : lastSlotBlank items = true)
    (hid : items.getLast?.map RecyclingItem.id ≠ some id) :
    lastSlotBlank (removeItem items id) = true := by
  unfold removeItem
  by_cases hlen : items.length > 1
  · rw [if_pos hlen]
    have hne : items ≠ [] := lastSlotBlank_ne_nil h
    have hlast : items.getLast? = some (items.getLast hne) :=
      List.getLast?_eq_getLast items hne
    have hidlast : ¬ (items.getLast hne).id = id := by
      intro heq
      exact hid (by rw [hlast]; simp [heq])
    conv_lhs => rw [← List.dropLast_append_getLast hne]
    rw [List.filter_append]
    unfold lastSlotBlank at h ⊢
    rw [hlast] at h
    simp at h
    simp [hidlast]
    exact h
  · rw [if_neg hlen]
    exact h

lemma itemOps_inv : ∀ (ops : List ItemOp) (items : List RecyclingItem),
    lastSlotBlank items = true → itemOpsOk items ops = true →
    lastSlotBlank (ops.foldl applyItemOp items) = true := by
  intro ops
  induction ops with
  | nil =>
    intro items h _
    simpa using h
  | cons op rest ih =>
    intro items h hok
    simp only [itemOpsOk, Bool.and_eq_true] at hok
    simp only [List.foldl_cons]
    refine ih (applyItemOp items op) ?_ hok.2
    cases op with
    | edit id value freshId => exact lastSlotBlank_handleItemChange items id value freshId h
    | remove id =>
      refine lastSlotBlank_removeItem items id h ?_
      intro heq
      have h1 := hok.1
      simp [itemOpOk, heq] at h1

/-- Claim C2 (amended): for every sequence of item edits and deletes starting
from the initial single blank slot, as long as no delete targets the last
slot, the Items list is never empty and always ends in a blank (trim-empty)
slot; and editing the last slot to a non-empty value appends exactly one new
blank slot.  (The claim as frozen fails because `removeItem` also accepts the
trailing blank slot — see the counterexample.) -/
theorem c2_items_trailing_blank_amended :
    (∀ ops : List ItemOp, itemOpsOk initialItems ops = true →
      lastSlotBlank (runItemOps ops) = true ∧ runItemOps ops ≠ []) ∧
    (∀ (items : List RecyclingItem) (id value freshId : String),
      items.getLast?.map RecyclingItem.id = some id → jsTrim value ≠ "" →
      handleItemChange items id value freshId =
        (items.map fun item =>
          if item.id = id then { item with name := value } else item) ++
        [{ id := freshId, name := "" }]) := by
  constructor
  · intro ops hok
    have h := itemOps_inv ops initialItems (by decide) hok
    exact ⟨h, lastSlotBlank_ne_nil h⟩
  · intro items id value freshId h1 h2
    unfold handleItemChange
    rw [if_pos ⟨h1, h2⟩]

/-- Claim C2 counterexample: after the edit sequence `1 ↦ "x"`, `2 ↦ "y"` and
an explicit delete of the trailing blank slot "3", the list is
`[{1, x}, {2, y}]` — two slots, no trailing empty slot — refuting "exactly
one trailing empty slot, except deleting down to the minimum of one slot". -/
theorem c2_items_trailing_blank_counterexample :
    ¬ claimedItemsInvariant
        (runItemOps [.edit "1" "x" "2", .edit "2" "y" "3", .remove "3"]) := by
  unfold claimedItemsInvariant
  decide

/-- Witness for the amended C2 at concrete inputs: the one-edit sequence, and
a concrete append-on-edit of the last blank slot. -/
theorem c2_items_trailing_blank_witness :
    (itemOpsOk initialItems [ItemOp.edit "1" "x" "2"] = true ∧
     lastSlotBlank (runItemOps [ItemOp.edit "1" "x" "2"]) = true ∧
     runItemOps [ItemOp.edit "1" "x" "2"] ≠ []) ∧
    handleItemChange [⟨"1", "jar"⟩, ⟨"2", ""⟩] "2" "bottle" "3" =
      [⟨"1", "jar"⟩, ⟨"2", "bottle"⟩, ⟨"3", ""⟩] := by
  constructor
  · exact ⟨by decide, (c2_items_trailing_blank_amended.1 _ (by decide)).1,
      (c2_items_trailing_blank_amended.1 _ (by decide)).2⟩
  · rw [c2_items_trailing_blank_amended.2 [⟨"1", "jar"⟩, ⟨"2", ""⟩] "2" "bottle" "3"
      (by decide) (by decide)]
    decide

/-! ## Claims C3, C5, C6, C7: submission state machine -/

/-- Claim C5: submission is a no-op on invalid input — in item-collection
mode with zero non-blank item names, or in chat mode with a blank follow-up
field, `handleSubmit` makes no network call and returns the state unchanged. -/
theorem c5_invalid_submission_noop (s : AppState) (net : NetResult)
    (ts newId : String) :
    (s.showItemsInput = true → (validItemsOf s.items).length = 0 →
      handleSubmit s net ts newId = ⟨s, none⟩) ∧
    (s.showItemsInput = false → jsTrim s.currentInput = "" →
      handleSubmit s net ts newId = ⟨s, none⟩) := by
  constructor
  · intro hmode hval
    unfold handleSubmit
    simp [hmode, hval]
  · intro hmode hin
    unfold handleSubmit
    simp [hmode, hin]

/-- Claim C3: on the first successful submission in item-collection mode the
mode switches to chatting and a `RecyclingInstruction` holding the submitted
non-blank items and the returned text is prepended to the history; a failed
initial submission changes neither; in chat mode no submission ever creates a
history entry or changes the mode (so the CollectingItems → Chatting
transition happens exactly once per conversation, at the first success); only
`handleNewChat` returns to CollectingItems, and it clears the messages while
keeping the history. -/
theorem c3_mode_transition (s : AppState) (net : NetResult) (ts newId : String) :
    (s.showItemsInput = true → ∀ t, net = .ok t →
      (validItemsOf s.items).length ≠ 0 →
      (handleSubmit s net ts newId).state.showItemsInput = false ∧
      (handleSubmit s net ts newId).state.hasInitialResponse = true ∧
      (handleSubmit s net ts newId).state.history =
        ⟨newId, validItemsOf s.items, s.additionalNotes, t, ts⟩ :: s.history) ∧
    (s.showItemsInput = true → net = .fail →
      (handleSubmit s net ts newId).state.showItemsInput = true ∧
      (handleSubmit s net ts newId).state.history = s.history) ∧
    (s.showItemsInput = false →
      (handleSubmit s net ts newId).state.showItemsInput = false ∧
      (handleSubmit s net ts newId).state.history = s.history) ∧
    ((handleNewChat s).showItemsInput = true ∧ (handleNewChat s).messages = [] ∧
      (handleNewChat s).history = s.history) := by
  refine ⟨?_, ?_, ?_, ?_⟩
  · intro hmode t hnet hval
    subst hnet
    unfold handleSubmit submitCore
    simp [hmode, hval]
  · intro hmode hnet
    subst hnet
    unfold handleSubmit submitCore
    by_cases hval : (validItemsOf s.items).length = 0
    · simp [hmode, hval]
    · simp [hmode, hval]
  · intro hmode
    unfold handleSubmit submitCore
    by_cases hin : jsTrim s.currentInput = ""
    · simp [hmode, hin]
    · cases net <;> simp [hmode, hin]
  · exact ⟨rfl, rfl, rfl⟩

/-- Witness for C5 at concrete states: a whitespace-only single item in
collection mode, and a whitespace-only follow-up field in chat mode. -/
theorem c5_invalid_submission_noop_witness :
    handleSubmit ⟨[⟨"1", " "⟩], "", false, [], none, [], "", true, false⟩
        (.ok "x") "t" "9" =
      ⟨⟨[⟨"1", " "⟩], "", false, [], none, [], "", true, false⟩, none⟩ ∧
    handleSubmit ⟨[⟨"1", ""⟩], "", false, [], none,
        [⟨.user, "Items: jar", "t0"⟩], "  ", false, true⟩ (.ok "x") "t" "9" =
      ⟨⟨[⟨"1", ""⟩], "", false, [], none,
        [⟨.user, "Items: jar", "t0"⟩], "  ", false, true⟩, none⟩ :=
  ⟨(c5_invalid_submission_noop _ _ _ _).1 rfl (by decide),
   (c5_invalid_submission_noop _ _ _ _).2 rfl (by decide)⟩

/-- Witness for C3 at a concrete first successful submission. -/
theorem c3_mode_transition_witness :
    (handleSubmit ⟨[⟨"1", "jar"⟩, ⟨"2", ""⟩], "notes", false, [], none, [], "",
        true, false⟩ (.ok "Make a vase.") "t" "9").state.showItemsInput = false ∧
    (handleSubmit ⟨[⟨"1", "jar"⟩, ⟨"2", ""⟩], "notes", false, [], none, [], "",
        true, false⟩ (.ok "Make a vase.") "t" "9").state.hasInitialResponse = true ∧
    (handleSubmit ⟨[⟨"1", "jar"⟩, ⟨"2", ""⟩], "notes", false, [], none, [], "",
        true, false⟩ (.ok "Make a vase.") "t" "9").state.history =
      [⟨"9", [⟨"1", "jar"⟩], "notes", "Make a vase.", "t"⟩] := by
  have h := (c3_mode_transition
    ⟨[⟨"1", "jar"⟩, ⟨"2", ""⟩], "notes", false, [], none, [], "", true, false⟩
    (.ok "Make a vase.") "t" "9").1 rfl "Make a vase." rfl (by decide)
  refine ⟨h.1, h.2.1, ?_⟩
  rw [h.2.2]
  decide

lemma joinSep_mem_infix (sep : String) (parts : List String) (a : String)
    (ha : a ∈ parts) :
    ∃ l r : List Char, (joinSep sep parts).data = l ++ a.data ++ r := by
  induction parts with
  | nil => cases ha
  | cons x xs ih =>
    cases xs with
    | nil =>
      rw [List.mem_singleton.mp ha]
      exact ⟨[], [], by simp [joinSep]⟩
    | cons y ys =>
      cases List.mem_cons.mp ha with
      | inl h =>
        subst h
        exact ⟨[], (sep ++ joinSep sep (y :: ys)).data,
          by simp [joinSep, String.data_append]⟩
      | inr h =>
        obtain ⟨l, r, hr⟩ := ih h
        exact ⟨(x ++ sep).data ++ l, r,
          by simp [joinSep, String.data_append, hr]⟩

/-- Claim C6: in chat mode, the prompt sent upstream is the entire prior
message sequence serialized as "Human:"/"Assistant:" labeled lines joined by
a line break, followed by the new text as a Human turn; every prior message's
serialized line occurs in the sent prompt (full context, no truncation). -/
theorem c6_followup_prompt_full_context (s : AppState) (net : NetResult)
    (ts newId : String)
    (hmode : s.showItemsInput = false) (hin : jsTrim s.currentInput ≠ "") :
    (handleSubmit s net ts newId).request =
      some (joinSep "\n" (s.messages.map serializeMessage) ++ "\n\nHuman: " ++
        s.currentInput) ∧
    ∀ m ∈ s.messages, ∃ l r : List Char,
      (joinSep "\n" (s.messages.map serializeMessage) ++ "\n\nHuman: " ++
        s.currentInput).data = l ++ (serializeMessage m).data ++ r := by
  constructor
  · unfold handleSubmit submitCore buildPromptWithContext
    cases net <;> simp [hmode, hin]
  · intro m hm
    obtain ⟨l, r, hr⟩ := joinSep_mem_infix "\n" (s.messages.map serializeMessage)
      (serializeMessage m) (List.mem_map_of_mem serializeMessage hm)
    refine ⟨l, r ++ ("\n\nHuman: " ++ s.currentInput).data, ?_⟩
    simp [String.data_append, hr]

/-- Witness for C6 at a concrete two-message transcript. -/
theorem c6_followup_prompt_witness :
    (handleSubmit ⟨[⟨"1", ""⟩], "", false, [], none,
        [⟨.user, "Items: jar", "t0"⟩, ⟨.assistant, "Make a vase.", "t0"⟩],
        "any other ideas?", false, true⟩ (.ok "Sure.") "t1" "9").request =
      some ("Human: Items: jar\nAssistant: Make a vase.\n\nHuman: any other ideas?") := by
  have h := (c6_followup_prompt_full_context ⟨[⟨"1", ""⟩], "", false, [], none,
    [⟨.user, "Items: jar", "t0"⟩, ⟨.assistant, "Make a vase.", "t0"⟩],
    "any other ideas?", false, true⟩ (.ok "Sure.") "t1" "9" rfl (by decide)).1
  rw [h]
  decide

/-- Claim C7 (amended): a failed submission is caught and surfaced as the
single fixed error message; the post-failure state is the pre-submission
state plus the appended user turn and the error flag, plus the cleared input
field (`setCurrentInput('')` runs before the fetch) and the loading flag
ending false.  No assistant message, no history entry, no mode change — all
already implied by the record equality. -/
theorem c7_failure_surfaced_amended (s : AppState) (ts newId : String) :
    (s.showItemsInput = true → (validItemsOf s.items).length ≠ 0 →
      (handleSubmit s .fail ts newId).state =
        { s with
            messages := s.messages ++ [⟨.user, "Items: " ++
              joinSep ", " ((validItemsOf s.items).map RecyclingItem.name), ts⟩],
            error := some failureMessage,
            currentInput := "",
            isLoading := false }) ∧
    (s.showItemsInput = false → jsTrim s.currentInput ≠ "" →
      (handleSubmit s .fail ts newId).state =
        { s with
            messages := s.messages ++ [⟨.user, s.currentInput, ts⟩],
            error := some failureMessage,
            currentInput := "",
            isLoading := false }) := by
  constructor
  · intro hmode hval
    unfold handleSubmit submitCore
    simp [hmode, hval]
  · intro hmode hin
    unfold handleSubmit submitCore
    simp [hmode, hin]

/-- Claim C7 counterexample: at a concrete chat-mode state with typed input
"more ideas", the post-failure state is not the pre-submission state plus the
user's turn plus the error flag — the code also clears `currentInput`. -/
theorem c7_failure_counterexample :
    (handleSubmit
        ⟨[⟨"1", "jar"⟩, ⟨"2", ""⟩], "", false, [], none,
         [⟨.user, "Items: jar", "t0"⟩, ⟨.assistant, "Make a vase.", "t0"⟩],
         "more ideas", false, true⟩ .fail "t1" "9").state ≠
      { items := [⟨"1", "jar"⟩, ⟨"2", ""⟩], additionalNotes := "",
        isLoading := false, history := [], error := some failureMessage,
        messages := [⟨.user, "Items: jar", "t0"⟩, ⟨.assistant, "Make a vase.", "t0"⟩,
          ⟨.user, "more ideas", "t1"⟩],
        currentInput := "more ideas", showItemsInput := false,
        hasInitialResponse := true } := by
  decide

/-- Witness for the amended C7 at the same concrete chat-mode state. -/
theorem c7_failure_surfaced_witness :
    (handleSubmit
        ⟨[⟨"1", "jar"⟩, ⟨"2", ""⟩], "", false, [], none,
         [⟨.user, "Items: jar", "t0"⟩, ⟨.assistant, "Make a vase.", "t0"⟩],
         "more ideas", false, true⟩ .fail "t1" "9").state =
      { items := [⟨"1", "jar"⟩, ⟨"2", ""⟩], additionalNotes := "",
        isLoading := false, history := [], error := some failureMessage,
        messages := [⟨.user, "Items: jar", "t0"⟩, ⟨.assistant, "Make a vase.", "t0"⟩,
          ⟨.user, "more ideas", "t1"⟩],
        currentInput := "", showItemsInput := false,
        hasInitialResponse := true } := by
  have h := (c7_failure_surfaced_amended
    ⟨[⟨"1", "jar"⟩, ⟨"2", ""⟩], "", false, [], none,
     [⟨.user, "Items: jar", "t0"⟩, ⟨.assistant, "Make a vase.", "t0"⟩],
     "more ideas", false, true⟩ "t1" "9").2 rfl (by decide)
  rw [h]
  decide

/-! ## Claims C4, C8, C9: proxy relay and persistence -/

/-- Claim C4: the proxy relays a 2xx upstream response unchanged with status
200; any non-2xx upstream response yields status 500 with the upstream error
body as the `error` payload when that body is present (truthy — JavaScript
`||` replaces a falsy body such as an empty string with the generic message),
and an unreachable upstream yields the same 500 shape with the generic
message. -/
theorem c4_proxy_relay (upstream : Json → UpstreamOutcome) (c : Json) :
    (∀ status body, upstream c = .http status body → 200 ≤ status → status < 300 →
      geminiPost upstream c = ⟨200, body⟩) ∧
    (∀ status body, upstream c = .http status body →
      ¬(200 ≤ status ∧ status < 300) →
      geminiPost upstream c =
        ⟨500, Json.obj [("error",
          if body.falsy then genericErrorBody else body)]⟩) ∧
    (upstream c = .network →
      geminiPost upstream c = ⟨500, Json.obj [("error", genericErrorBody)]⟩) := by
  refine ⟨fun status body h h1 h2 => ?_, fun status body h hns => ?_, fun h => ?_⟩
  · unfold geminiPost
    rw [h]
    simp [h1, h2]
  · unfold geminiPost errorPayload
    rw [h]
    simp [hns]
  · unfold geminiPost errorPayload
    rw [h]

/-- Witness for C4 at three concrete upstream behaviours: a 200 response, a
429 response with an error body, and a network failure. -/
theorem c4_proxy_relay_witness :
    geminiPost (fun _ => .http 200 (Json.obj [("candidates", Json.arr [])]))
        Json.null = ⟨200, Json.obj [("candidates", Json.arr [])]⟩ ∧
    geminiPost (fun _ => .http 429 (Json.str "quota exceeded")) Json.null =
      ⟨500, Json.obj [("error", Json.str "quota exceeded")]⟩ ∧
    geminiPost (fun _ => .network) Json.null =
      ⟨500, Json.obj [("error", genericErrorBody)]⟩ := by
  refine ⟨(c4_proxy_relay _ _).1 200 _ rfl (by decide) (by decide), ?_,
    (c4_proxy_relay _ _).2.2 rfl⟩
  have h := (c4_proxy_relay (fun _ => .http 429 (Json.str "quota exceeded"))
    Json.null).2.1 429 (Json.str "quota exceeded") rfl (by decide)
  rw [h]
  rfl

lemma decodeItems_encode (items : List RecyclingItem) :
    decodeItems (items.map encodeItem) = some items := by
  induction items with
  | nil => rfl
  | cons i rest ih => simp [decodeItems, decodeItem, encodeItem, ih]

lemma decodeEntry_encode (e : RecyclingInstruction) :
    decodeEntry (encodeEntry e) = some e := by
  simp [decodeEntry, encodeEntry, decodeItems_encode]

lemma decodeEntries_encode (h : List RecyclingInstruction) :
    decodeEntries (h.map encodeEntry) = some h := by
  induction h with
  | nil => rfl
  | cons e rest ih => simp [decodeEntries, decodeEntry_encode, ih]

/-- Claim C8: serializing the history and reading it back reproduces an
identical ordered sequence of `RecyclingInstruction` values; in particular
the value the save effect writes decodes to exactly the in-memory history. -/
theorem c8_history_roundtrip (h : List RecyclingInstruction) :
    decodeHistory (encodeHistory h) = some h ∧
    ∀ store : Option Json, h ≠ [] →
      (saveHistoryEffect store h).map decodeHistory = some (some h) := by
  constructor
  · unfold decodeHistory encodeHistory
    exact decodeEntries_encode h
  · intro store hne
    unfold saveHistoryEffect
    rw [if_pos (by simpa [List.length_pos] using hne)]
    simp only [Option.map_some']
    rw [show decodeHistory (encodeHistory h) = some h from decodeEntries_encode h]

/-- Witness for C8 at a concrete one-entry history. -/
theorem c8_history_roundtrip_witness :
    decodeHistory (encodeHistory
        [⟨"9", [⟨"1", "jar"⟩], "notes", "Make a vase.", "t"⟩]) =
      some [⟨"9", [⟨"1", "jar"⟩], "notes", "Make a vase.", "t"⟩] ∧
    (saveHistoryEffect none
        [⟨"9", [⟨"1", "jar"⟩], "notes", "Make a vase.", "t"⟩]).map decodeHistory =
      some (some [⟨"9", [⟨"1", "jar"⟩], "notes", "Make a vase.", "t"⟩]) :=
  ⟨(c8_history_roundtrip _).1, (c8_history_roundtrip _).2 none (by decide)⟩

/-- Claim C9: the save effect leaves the stored `recyclingHistory` value
unchanged whenever the in-memory history is empty, and writes the serialized
history exactly when it is non-empty — a previously persisted history is
never overwritten with an empty list. -/
theorem c9_empty_history_not_persisted (store : Option Json)
    (history : List RecyclingInstruction) :
    (history = [] → saveHistoryEffect store history = store) ∧
    (history ≠ [] →
      saveHistoryEffect store history = some (encodeHistory history)) := by
  constructor
  · intro h
    subst h
    rfl
  · intro h
    unfold saveHistoryEffect
    rw [if_pos (by simpa [List.length_pos] using h)]

/-- Witness for C9: an empty history leaves a previously stored value
untouched; a non-empty history is written. -/
theorem c9_empty_history_not_persisted_witness :
    saveHistoryEffect (some (encodeHistory [⟨"9", [⟨"1", "jar"⟩], "n", "r", "t"⟩]))
        [] = some (encodeHistory [⟨"9", [⟨"1", "jar"⟩], "n", "r", "t"⟩]) ∧
    saveHistoryEffect none [⟨"8", [], "", "r2", "t2"⟩] =
      some (encodeHistory [⟨"8", [], "", "r2", "t2"⟩]) :=
  ⟨(c9_empty_history_not_persisted _ _).1 rfl,
   (c9_empty_history_not_persisted _ _).2 (by decide)⟩

end RecycleAI
